import Mathlib

/-!
Shallow embedding of the logging-middleware pipeline
(`StorageAdapter`, `LogBuffer`, `RemoteAdapter`, `Logger`,
`PerformanceTracker`) of the repository, together with theorems settling
the frozen claims about it.

Conventions of the embedding:
* JS `Date` / `performance.now()` timestamps are `Nat` (milliseconds).
* `localStorage` under the adapter's single key is
  `Option (List LogEntry)`; the JSON (de)serialisation of entries is the
  identity on this model (timestamps round-trip through ISO strings).
* Exceptions are explicit: operations that can throw return a value
  together with an `Option String` (the escaped error), or a dedicated
  result structure.  The unbounded recursion of `StorageAdapter.store`
  is rendered with explicit fuel: exhausting the fuel models the stack
  overflow (`RangeError`) the real recursion would raise.
* Nondeterministic collaborators (the storage backend, the network
  transport, the console object) are oracle parameters.
-/

namespace LoggingMW

/-- Enum `LogLevel` from `types.ts`: DEBUG, INFO, WARN, ERROR, FATAL. -/
inductive LogLevel
| DEBUG
| INFO
| WARN
| ERROR
| FATAL
deriving DecidableEq, Repr

open LogLevel

/-- The ordered list `[DEBUG, INFO, WARN, ERROR, FATAL]` that
`Logger.shouldLog` builds and indexes with `indexOf`. -/
def levels : List LogLevel := [DEBUG, INFO, WARN, ERROR, FATAL]

/-- Index `levels.indexOf(l)` as computed inside `Logger.shouldLog`. -/
def levelIndex (l : LogLevel) : Nat :=
  match l with
  | DEBUG => 0
  | INFO => 1
  | WARN => 2
  | ERROR => 3
  | FATAL => 4

/-- Record `LogEntry` from `types.ts`, restricted to the fields the pipeline
logic reads (`id`, `timestamp`, `level`, `message`, `component`); the
remaining fields (`sessionId`, `userId`, `metadata`, `stack`, `url`,
`userAgent`) are carried opaquely by the pipeline and are omitted. -/
structure LogEntry where
  id : String
  timestamp : Nat
  level : LogLevel
  message : String
  component : Option String := none
deriving DecidableEq, Repr

/-- Helper for concrete test entries. -/
def mkEntry (id : String) (timestamp : Nat) (level : LogLevel) (message : String) : LogEntry :=
  { id := id, timestamp := timestamp, level := level, message := message }

/-! ## LogBuffer (`utils/LogBuffer.ts`) -/

/-- Class `LogBuffer`: the in-memory ring buffer.  `buffer` is the private
array, `maxSize` the bound. -/
structure LogBuffer where
  buffer : List LogEntry
  maxSize : Nat
deriving DecidableEq, Repr

/-- The constructor `new LogBuffer(maxSize)`: starts empty and clamps
the bound with `Math.max(1, maxSize)`. -/
def LogBuffer.create (maxSize : Nat) : LogBuffer :=
  { buffer := [], maxSize := max 1 maxSize }

/-- Method `LogBuffer.add`: push the entry, then if the length exceeds
`maxSize` shift off the oldest entry (one `shift()` call). -/
def LogBuffer.add (b : LogBuffer) (e : LogEntry) : LogBuffer :=
  let pushed := b.buffer ++ [e]
  if b.maxSize < pushed.length then { b with buffer := pushed.tail }
  else { b with buffer := pushed }

/-- Method `LogBuffer.flush`: snapshot the contents and empty the buffer. -/
def LogBuffer.flushBuf (b : LogBuffer) : List LogEntry × LogBuffer :=
  (b.buffer, { b with buffer := [] })

/-- Method `LogBuffer.size`. -/
def LogBuffer.size (b : LogBuffer) : Nat := b.buffer.length

/-- Method `LogBuffer.isFull`: `buffer.length >= maxSize`. -/
def LogBuffer.isFull (b : LogBuffer) : Bool := b.maxSize ≤ b.buffer.length

/-- Method `LogBuffer.setMaxSize`: clamp the new bound with `Math.max(1, n)`,
then repeatedly shift the oldest entry while the length exceeds it (the
`while` loop collapses to a single `drop`). -/
def LogBuffer.setMaxSize (b : LogBuffer) (n : Nat) : LogBuffer :=
  let m := max 1 n
  { buffer := b.buffer.drop (b.buffer.length - m), maxSize := m }

/-! ## StorageAdapter (`adapters/StorageAdapter.ts`) -/

/-- Result of one `localStorage.setItem` call on the adapter's key:
success, a `QuotaExceededError`, or any other error (whose `name` is
not `QuotaExceededError`). -/
inductive SetItemOutcome
| ok
| quotaExceeded
| otherError (msg : String)
deriving DecidableEq, Repr

/-- The storage backend oracle: outcome of the `n`-th `setItem` call
(counting all calls made through this adapter) on the given content. -/
def SetItemOracle := Nat → List LogEntry → SetItemOutcome

/-- State of `localStorage` as seen through the adapter's single key, plus the
observable side channels: the number of `setItem` calls made so far and
the out-of-band `console.error` reports. -/
structure StorageState where
  stored : Option (List LogEntry)
  writes : Nat
  reports : List String
deriving DecidableEq, Repr

/-- Fresh storage: nothing under the key yet. -/
def StorageState.init : StorageState := { stored := none, writes := 0, reports := [] }

/-- Call `localStorage.setItem(storageKey, serialized)` with the oracle
deciding success; on success the key now holds `content`. -/
def setItemModel (oracle : SetItemOracle) (st : StorageState) (content : List LogEntry) :
    SetItemOutcome × StorageState :=
  match oracle st.writes content with
  | .ok => (.ok, { st with stored := some content, writes := st.writes + 1 })
  | .quotaExceeded => (.quotaExceeded, { st with writes := st.writes + 1 })
  | .otherError msg => (.otherError msg, { st with writes := st.writes + 1 })

/-- Method `StorageAdapter.retrieve`: parse the stored list, `[]` when the key
is absent (parse failures, also returning `[]`, have no model because
the model stores entries directly). -/
def retrieveModel (st : StorageState) : List LogEntry := st.stored.getD []

/-- Method `StorageAdapter.clear`: a `removeItem` on the key. -/
def clearModel (st : StorageState) : StorageState := { st with stored := none }

/-- Method `StorageAdapter.clearOldEntries`: keep the last
`Math.floor(maxEntries / 2)` entries via `logs.slice(-k)` — note that
for `k = 0` JavaScript's `slice(-0)` is `slice(0)` and keeps
everything — and try to write them back; if that write also fails,
clear the store entirely. -/
def clearOldEntries (oracle : SetItemOracle) (maxEntries : Nat) (st : StorageState) :
    StorageState :=
  let logs := retrieveModel st
  let k := maxEntries / 2
  let reduced := if k = 0 then logs else logs.drop (logs.length - k)
  match setItemModel oracle st reduced with
  | (.ok, st') => st'
  | (_, st') => clearModel st'

/-- Outcome of a `StorageAdapter.store` call: the final backend state,
and whether the call crashed (`crashed = true` models the stack
overflow raised when the source's self-recursion never returns; the
fuel of `storeFuel` bounds the recursion depth explored). -/
structure StoreResult where
  st : StorageState
  crashed : Bool
deriving DecidableEq, Repr

/-- Method `StorageAdapter.store`: retrieve, push the entry, splice down to
the last `maxEntries` entries, and `setItem`.  On
`QuotaExceededError`: `clearOldEntries()` then `this.store(entry)` —
an unbounded self-recursion, rendered here with fuel.  On any other
error: report out-of-band via `console.error` and return (the entry is
dropped). -/
def storeFuel (oracle : SetItemOracle) (maxEntries : Nat) (entry : LogEntry) :
    Nat → StorageState → StoreResult
  | 0, st => { st := st, crashed := true }
  | fuel+1, st =>
    let existing := retrieveModel st
    let pushed := existing ++ [entry]
    let trimmed :=
      if maxEntries < pushed.length then pushed.drop (pushed.length - maxEntries) else pushed
    match setItemModel oracle st trimmed with
    | (.ok, st') => { st := st', crashed := false }
    | (.quotaExceeded, st') =>
      storeFuel oracle maxEntries entry fuel (clearOldEntries oracle maxEntries st')
    | (.otherError msg, st') =>
      { st := { st' with reports := st'.reports ++ ["Failed to store log entry: " ++ msg] },
        crashed := false }

/-- The successful-write path of `store` at the list level: push, then
splice off the front down to `maxEntries`. -/
def storePure (maxEntries : Nat) (logs : List LogEntry) (e : LogEntry) : List LogEntry :=
  let pushed := logs ++ [e]
  if maxEntries < pushed.length then pushed.drop (pushed.length - maxEntries) else pushed

/-- The retained list after a sequence of successful `store` calls on a
fresh adapter. -/
def storeSeq (maxEntries : Nat) (es : List LogEntry) : List LogEntry :=
  es.foldl (storePure maxEntries) []

/-- The always-succeeding backend. -/
def oracleOk : SetItemOracle := fun _ _ => .ok

/-- The backend whose every write fails with `QuotaExceededError`
(e.g. a single entry larger than the whole quota). -/
def oracleQuota : SetItemOracle := fun _ _ => .quotaExceeded

/-! ## `getLogs` sorting (`core/Logger.ts`) -/

/-- Stable insertion of an entry into a timestamp-descending list:
walk past every element whose timestamp is at least the new one. -/
def insertDesc (e : LogEntry) : List LogEntry → List LogEntry
  | [] => [e]
  | x :: xs => if e.timestamp ≤ x.timestamp then x :: insertDesc e xs else e :: x :: xs

/-- The call `logs.sort((a, b) => b.timestamp.getTime() - a.timestamp.getTime())`:
a stable sort into timestamp-descending order, modelled as stable
insertion sort. -/
def sortDesc (l : List LogEntry) : List LogEntry :=
  l.foldl (fun acc e => insertDesc e acc) []

/-- Method `Logger.getLogs()` with no filter: retrieve from the storage
adapter and sort newest-first. -/
def getLogsAll (st : StorageState) : List LogEntry := sortDesc (retrieveModel st)

/-! ## RemoteAdapter (`adapters/RemoteAdapter.ts`) -/

/-- The adapter's configuration fields (`timeout` only shapes a single
`makeRequest`, which the transport oracle subsumes). -/
structure RemoteAdapter where
  endpoint : Option String
  retryAttempts : Nat := 3
  retryDelay : Nat := 1000
deriving DecidableEq, Repr

/-- JS truthiness of `!this.endpoint`: no endpoint, or the empty
string. -/
def RemoteAdapter.endpointMissing (a : RemoteAdapter) : Bool :=
  match a.endpoint with
  | none => true
  | some s => s = ""

/-- Observable outcome of `sendBatch`: the early return (no endpoint /
empty batch), success on a given attempt, or the final `throw
lastError` — each with the list of backoff delays awaited before it. -/
inductive SendOutcome
| noop
| success (attempt : Nat) (delays : List Nat)
| failure (delays : List Nat)
deriving DecidableEq, Repr

/-- The retry loop `for (attempt = 1; attempt <= retryAttempts; ...)`:
`transport a` is whether `makeRequest` succeeds on attempt `a`; after a
failed attempt `a < retryAttempts`, await `retryDelay * a`. -/
def attemptLoop (transport : Nat → Bool) (retryAttempts retryDelay : Nat) :
    List Nat → List Nat → SendOutcome
  | [], delays => .failure delays
  | a :: rest, delays =>
    if transport a then .success a delays
    else attemptLoop transport retryAttempts retryDelay rest
      (delays ++ if a < retryAttempts then [retryDelay * a] else [])

/-- Method `RemoteAdapter.sendBatch`. -/
def RemoteAdapter.sendBatch (ad : RemoteAdapter) (transport : Nat → Bool)
    (entries : List LogEntry) : SendOutcome :=
  if ad.endpointMissing || entries.isEmpty then .noop
  else attemptLoop transport ad.retryAttempts ad.retryDelay
    (List.range' 1 ad.retryAttempts) []

/-! ## Logger (`core/Logger.ts`) -/

/-- Record `LoggerConfig` (defaults from the `Logger` constructor). -/
structure LoggerConfig where
  level : LogLevel := .INFO
  enableConsole : Bool := true
  enableStorage : Bool := true
  enableRemote : Bool := false
  maxStorageEntries : Nat := 1000
  bufferSize : Nat := 50
  flushInterval : Nat := 5000
  remoteEndpoint : Option String := none
deriving Repr

/-- Method `Logger.shouldLog`: `messageLevelIndex >= currentLevelIndex` over
`levels.indexOf`. -/
def shouldLog (cfg : LoggerConfig) (level : LogLevel) : Bool :=
  levelIndex cfg.level ≤ levelIndex level

/-- Method `Logger.createLogEntry`, with the ambient clock and id generator
passed explicitly. -/
def createLogEntry (now : Nat) (freshId : String) (level : LogLevel) (message : String)
    (component : Option String) : LogEntry :=
  { id := freshId, timestamp := now, level := level, message := message,
    component := component }

/-- The mutable state a `Logger` instance acts on: its ring buffer, the
console sink's emissions, the storage adapter's backend, and the
out-of-band `console.error` / `console.warn` channel used by the catch
handlers. -/
structure LoggerState where
  buffer : LogBuffer
  consoleOut : List LogEntry
  storage : StorageState
  consoleErrors : List String
deriving Repr

/-- The sinks an entry can be handed to inside `processLogEntry`. -/
inductive Sink
| ringBuffer
| console
| storage
deriving DecidableEq, Repr

/-- Method `Logger.flush`: if remote is enabled and the buffer is non-empty,
drain the buffer and `sendBatch` the batch; when the send rejects,
re-add every batch entry to the buffer and warn out-of-band. -/
def flushOnce (cfg : LoggerConfig) (ad : RemoteAdapter) (transport : Nat → Bool)
    (st : LoggerState) : LoggerState :=
  if cfg.enableRemote = true ∧ 0 < st.buffer.size then
    let drained := st.buffer.flushBuf
    match ad.sendBatch transport drained.1 with
    | .failure _ =>
      { st with buffer := drained.1.foldl LogBuffer.add drained.2,
                consoleErrors := st.consoleErrors ++ ["Failed to send logs to remote endpoint"] }
    | _ => { st with buffer := drained.2 }
  else st

/-- The storage-sink step of `processLogEntry`: call
`storageAdapter.store` when storage is enabled; a crash of `store`
(stack overflow of its quota recursion) escapes as a thrown error. -/
def applyStorage (cfg : LoggerConfig) (oracle : SetItemOracle) (storeDepth : Nat)
    (st : LoggerState) (e : LogEntry) : LoggerState × Option String :=
  if cfg.enableStorage then
    let r := storeFuel oracle cfg.maxStorageEntries e storeDepth st.storage
    ({ st with storage := r.st },
      if r.crashed then some "RangeError: Maximum call stack size exceeded" else none)
  else (st, none)

/-- Result of `processLogEntry`: the new state, the sinks the entry was
handed to, and the error that escaped the async body (its promise
rejection), if any. -/
structure ProcessResult where
  st : LoggerState
  offered : List Sink
  thrown : Option String
deriving Repr

/-- Method `Logger.processLogEntry`: add to the ring buffer; console sink if
enabled (`consoleFails` is the oracle for the console object throwing);
storage sink if enabled; then, if remote is enabled and the buffer is
now full, an awaited `flush`.  An error thrown anywhere stops the rest
of the body and becomes the promise rejection. -/
def processLogEntry (cfg : LoggerConfig) (consoleFails : Bool) (oracle : SetItemOracle)
    (storeDepth : Nat) (ad : RemoteAdapter) (transport : Nat → Bool)
    (st : LoggerState) (e : LogEntry) : ProcessResult :=
  let st1 := { st with buffer := st.buffer.add e }
  if cfg.enableConsole && consoleFails then
    ⟨st1, [Sink.ringBuffer, Sink.console], some "console sink threw"⟩
  else
    let st2 := if cfg.enableConsole then { st1 with consoleOut := st1.consoleOut ++ [e] } else st1
    let offered := Sink.ringBuffer ::
      ((if cfg.enableConsole then [Sink.console] else []) ++
       (if cfg.enableStorage then [Sink.storage] else []))
    match applyStorage cfg oracle storeDepth st2 e with
    | (st3, some err) => ⟨st3, offered, some err⟩
    | (st3, none) =>
      let st4 :=
        if cfg.enableRemote = true ∧ st3.buffer.isFull = true
        then flushOnce cfg ad transport st3 else st3
      ⟨st4, offered, none⟩

/-- Method `Logger.log`: gate on `shouldLog`, build the entry, and run
`processLogEntry` with a `.catch` that routes any rejection to
`console.error`.  The `Except` layer records whether anything escapes
to the caller: a `.error` result would be an exception thrown back out
of `log`. -/
def logE (cfg : LoggerConfig) (consoleFails : Bool) (oracle : SetItemOracle)
    (storeDepth : Nat) (ad : RemoteAdapter) (transport : Nat → Bool)
    (now : Nat) (freshId : String) (st : LoggerState) (level : LogLevel)
    (message : String) (component : Option String) :
    Except String (LoggerState × List Sink) :=
  if !(shouldLog cfg level) then .ok (st, [])
  else
    let e := createLogEntry now freshId level message component
    match processLogEntry cfg consoleFails oracle storeDepth ad transport st e with
    | ⟨st', offered, some err⟩ =>
      .ok ({ st' with consoleErrors :=
               st'.consoleErrors ++ ["Failed to process log entry: " ++ err] }, offered)
    | ⟨st', offered, none⟩ => .ok (st', offered)

/-- The sinks a `log` call handed its entry to (`[]` when the level
was filtered out or an exception escaped `log`, which never happens). -/
def logOffered (cfg : LoggerConfig) (consoleFails : Bool) (oracle : SetItemOracle)
    (storeDepth : Nat) (ad : RemoteAdapter) (transport : Nat → Bool)
    (now : Nat) (freshId : String) (st : LoggerState) (level : LogLevel)
    (message : String) (component : Option String) : List Sink :=
  match logE cfg consoleFails oracle storeDepth ad transport now freshId st level
      message component with
  | .ok out => out.2
  | .error _ => []

/-! ## Logger lifecycle (construction / destroy) -/

/-- The two process-wide listeners `setupErrorHandlers` registers on
`window`. -/
inductive GlobalHandler
| onError
| onUnhandledRejection
deriving DecidableEq, Repr

/-- The instance-lifecycle facts the construction/teardown code
manipulates: which global listeners this instance has installed and
whether its flush interval timer is running. -/
structure LoggerLifecycle where
  installedHandlers : List GlobalHandler
  flushTimerActive : Bool
deriving DecidableEq, Repr

/-- The `Logger` constructor: `initializeAutoFlush()` starts the timer
when `flushInterval > 0`, and `setupErrorHandlers()` unconditionally
adds the `error` and `unhandledrejection` listeners. -/
def constructLogger (cfg : LoggerConfig) : LoggerLifecycle :=
  { installedHandlers := [GlobalHandler.onError, GlobalHandler.onUnhandledRejection],
    flushTimerActive := decide (0 < cfg.flushInterval) }

/-- Method `Logger.destroy`: clear the flush timer and run one best-effort
`flush` (which acts on the pipeline state, see `flushOnce`).  It calls
no `removeEventListener`, so the installed listeners are untouched. -/
def destroyLogger (l : LoggerLifecycle) : LoggerLifecycle :=
  { l with flushTimerActive := false }

/-! ## PerformanceTracker (`utils/PerformanceTracker.ts`) -/

/-- Tracker state: the `measurements` map (JS `Map<string, number>`,
modelled as a lookup function) and the entries it pushed through the
logging pipeline. -/
structure Tracker where
  measurements : String → Option Nat
  logged : List (LogLevel × String)

/-- A fresh tracker. -/
def Tracker.init : Tracker := { measurements := fun _ => none, logged := [] }

/-- Method `PerformanceTracker.start`: record `performance.now()` (the `now`
argument) under the label and log at DEBUG. -/
def trackerStart (now : Nat) (tr : Tracker) (label : String) : Tracker :=
  { measurements := fun x => if x = label then some now else tr.measurements x,
    logged := tr.logged ++ [(LogLevel.DEBUG, "Performance tracking started: " ++ label)] }

/-- Method `PerformanceTracker.end`: look the label up; `if (!startTime)` is a
JS truthiness test, so both an absent label and a stored `0` take the
warn-and-return-0 branch without deleting; otherwise delete the label,
log at INFO and return the duration. -/
def trackerEnd (now : Nat) (tr : Tracker) (label : String) : Nat × Tracker :=
  let falsy :=
    match tr.measurements label with
    | none => true
    | some t => t = 0
  if falsy then
    (0, { tr with logged :=
            tr.logged ++ [(LogLevel.WARN, "No start time found for performance label: " ++ label)] })
  else
    let t := (tr.measurements label).getD 0
    (now - t,
      { measurements := fun x => if x = label then none else tr.measurements x,
        logged := tr.logged ++ [(LogLevel.INFO, "Performance measurement: " ++ label)] })

/-- Method `PerformanceTracker.measure` on a synchronous operation, whose body
is a finished computation `fn : Except ε α` (`.error` = it threw):
`start`, run `fn`; on success `end` and return the value; on a throw
`end`, log the failure at ERROR and re-throw the caught error. -/
def trackerMeasure {ε α : Type} (startNow endNow : Nat) (tr : Tracker) (label : String)
    (fn : Except ε α) : Except ε α × Tracker :=
  let tr1 := trackerStart startNow tr label
  match fn with
  | .ok v => (.ok v, (trackerEnd endNow tr1 label).2)
  | .error err =>
    let tr2 := (trackerEnd endNow tr1 label).2
    (.error err,
      { tr2 with logged :=
          tr2.logged ++ [(LogLevel.ERROR, "Performance measurement failed: " ++ label)] })

/-! ## Concrete entries for witnesses and examples -/

/-- Sample entry X. -/
def eX : LogEntry := mkEntry "x" 1 .INFO "X"
/-- Sample entry Y. -/
def eY : LogEntry := mkEntry "y" 2 .INFO "Y"
/-- Sample entry Z. -/
def eZ : LogEntry := mkEntry "z" 3 .INFO "Z"
/-- Sample entry A. -/
def eA : LogEntry := mkEntry "a" 1 .INFO "A"
/-- Sample entry B. -/
def eB : LogEntry := mkEntry "b" 2 .INFO "B"
/-- Sample entry C. -/
def eC : LogEntry := mkEntry "c" 3 .INFO "C"
/-- Sample entry D. -/
def eD : LogEntry := mkEntry "d" 4 .INFO "D"

/-- A freshly constructed logger's pipeline state. -/
def initLoggerState : LoggerState :=
  { buffer := LogBuffer.create 50, consoleOut := [], storage := StorageState.init,
    consoleErrors := [] }

/-- A tracker whose `start` was recorded at `performance.now() = 0`. -/
def tr0 : Tracker := trackerStart 0 Tracker.init "op"

/-! ## Helper lemmas -/

theorem levelIndex_eq_indexOf (l : LogLevel) : levelIndex l = levels.indexOf l := by
  cases l <;> rfl

/-- One `add` preserves the size bound. -/
theorem LogBuffer.add_length_le (b : LogBuffer) (e : LogEntry)
    (h : b.buffer.length ≤ b.maxSize) : (b.add e).buffer.length ≤ b.maxSize := by
  unfold LogBuffer.add
  by_cases hc : b.maxSize < (b.buffer ++ [e]).length
  · simp only [hc, if_pos]
    simp only [List.length_tail, List.length_append, List.length_singleton]
    omega
  · simp only [hc, if_neg, not_false_iff]
    simp only [List.length_append, List.length_singleton] at *
    omega

/-- An `add` never changes `maxSize`. -/
theorem LogBuffer.add_maxSize (b : LogBuffer) (e : LogEntry) :
    (b.add e).maxSize = b.maxSize := by
  unfold LogBuffer.add
  by_cases hc : b.maxSize < (b.buffer ++ [e]).length <;>
    simp only [List.length_append, List.length_singleton] at hc <;> simp [hc]

/-- Folding `add` over a batch preserves the size bound. -/
theorem LogBuffer.foldl_add_length_le (es : List LogEntry) (b : LogBuffer)
    (h : b.buffer.length ≤ b.maxSize) :
    (es.foldl LogBuffer.add b).buffer.length ≤ (es.foldl LogBuffer.add b).maxSize := by
  induction es generalizing b with
  | nil => simpa using h
  | cons e rest ih =>
    simp only [List.foldl_cons]
    refine ih (b.add e) ?_
    rw [LogBuffer.add_maxSize b e]
    exact LogBuffer.add_length_le b e h

/-- When the backend write succeeds, `store` is exactly `storePure` on
the retained list (one `setItem` call, no crash, no report). -/
theorem storeFuel_ok (maxEntries : Nat) (entry : LogEntry) (fuel : Nat) (st : StorageState) :
    storeFuel oracleOk maxEntries entry (fuel + 1) st =
      ⟨{ st with stored := some (storePure maxEntries (retrieveModel st) entry),
                 writes := st.writes + 1 }, false⟩ := by
  simp [storeFuel, setItemModel, oracleOk, storePure]

/-- The bound `maxSize` is invariant under folded adds. -/
theorem LogBuffer.foldl_add_maxSize (es : List LogEntry) (b : LogBuffer) :
    (es.foldl LogBuffer.add b).maxSize = b.maxSize := by
  induction es generalizing b with
  | nil => rfl
  | cons e rest ih => simp only [List.foldl_cons]; rw [ih, LogBuffer.add_maxSize]

/-- Folding adds that fit under the bound never drops anything. -/
theorem foldl_add_no_drop (es buf : List LogEntry) (m : Nat)
    (h : buf.length + es.length ≤ m) :
    es.foldl LogBuffer.add ⟨buf, m⟩ = ⟨buf ++ es, m⟩ := by
  induction es generalizing buf with
  | nil => simp
  | cons e rest ih =>
    simp only [List.foldl_cons]
    have hstep : LogBuffer.add ⟨buf, m⟩ e = ⟨buf ++ [e], m⟩ := by
      have hlt : ¬ m < buf.length + 1 := by
        simp only [List.length_cons] at h
        omega
      simp [LogBuffer.add, hlt]
    rw [hstep, ih]
    · simp
    · simp only [List.length_append, List.length_singleton]
      simp only [List.length_cons] at h
      omega

/-- A sequence of successful stores retains exactly the suffix of the
most recent `C` entries. -/
theorem storeSeq_eq_drop (C : Nat) (es : List LogEntry) :
    storeSeq C es = es.drop (es.length - C) := by
  induction es using List.reverseRecOn with
  | nil => simp [storeSeq]
  | append_singleton es e ih =>
    have hfold : storeSeq C (es ++ [e]) = storePure C (storeSeq C es) e := by
      simp [storeSeq, List.foldl_append]
    rw [hfold, ih]
    unfold storePure
    have hlen : (es.drop (es.length - C)).length = es.length - (es.length - C) :=
      List.length_drop _ _
    by_cases hC0 : C = 0
    · subst hC0
      simp [List.drop_length]
    by_cases hC : C ≤ es.length
    · have hcond : C < (es.drop (es.length - C) ++ [e]).length := by
        simp only [List.length_append, List.length_singleton, hlen]
        omega
      simp only [hcond, if_pos]
      have hdrop1 : (es.drop (es.length - C) ++ [e]).length - C = 1 := by
        simp only [List.length_append, List.length_singleton, hlen]
        omega
      rw [hdrop1, List.drop_append_eq_append_drop, List.drop_drop,
        List.drop_append_eq_append_drop]
    -- both sides are now suffix computations on `es` and `[e]`; close by arithmetic
      have h1 : es.length - C + 1 = es.length + 1 - C := by omega
      have h2 : 1 - (es.drop (es.length - C)).length = 0 := by rw [hlen]; omega
      have h3 : es.length + 1 - C - es.length = 0 := by omega
      have h4 : (es ++ [e]).length = es.length + 1 := by simp
      rw [h4, h1, h2, h3]
    · have hlenfull : es.length - C = 0 := by omega
      have hcond : ¬ C < (es.drop (es.length - C) ++ [e]).length := by
        simp only [List.length_append, List.length_singleton, hlen]
        omega
      simp only [hcond, if_neg, not_false_iff]
      have h4 : (es ++ [e]).length = es.length + 1 := by simp
      rw [hlenfull, h4]
      have h5 : es.length + 1 - C = 0 := by omega
      rw [h5]
      simp

/-- Inserting an entry whose timestamp is strictly larger than every
timestamp in a list puts it in front. -/
theorem insertDesc_front (e : LogEntry) (l : List LogEntry)
    (h : ∀ x ∈ l, x.timestamp < e.timestamp) : insertDesc e l = e :: l := by
  cases l with
  | nil => rfl
  | cons x xs =>
    have hx : x.timestamp < e.timestamp := h x (List.mem_cons_self x xs)
    have hcond : ¬ e.timestamp ≤ x.timestamp := by omega
    simp [insertDesc, hcond]

/-- Folding the stable insertion over a strictly-increasing list
reverses it (each entry is newer than everything inserted so far). -/
theorem foldl_insertDesc_strictMono (es : List LogEntry) (acc : List LogEntry)
    (hes : es.Pairwise (fun a b => a.timestamp < b.timestamp))
    (hacc : ∀ x ∈ acc, ∀ y ∈ es, x.timestamp < y.timestamp) :
    es.foldl (fun a e => insertDesc e a) acc = es.reverse ++ acc := by
  induction es generalizing acc with
  | nil => simp
  | cons e rest ih =>
    simp only [List.foldl_cons]
    have hins : insertDesc e acc = e :: acc :=
      insertDesc_front e acc (fun x hx => hacc x hx e (List.mem_cons_self e rest))
    rw [hins, ih (e :: acc) (List.Pairwise.of_cons hes)]
    · simp
    · intro x hx y hy
      rcases List.mem_cons.mp hx with hxe | hxa
      · subst hxe
        exact (List.pairwise_cons.mp hes).1 y hy
      · exact hacc x hxa y (List.mem_cons_of_mem e hy)

/-- On entries with strictly increasing timestamps the
timestamp-descending sort is exactly the reverse. -/
theorem sortDesc_strictMono (es : List LogEntry)
    (hes : es.Pairwise (fun a b => a.timestamp < b.timestamp)) :
    sortDesc es = es.reverse := by
  have h := foldl_insertDesc_strictMono es [] hes (by intro x hx; cases hx)
  simpa [sortDesc] using h

/-- With the (non-throwing) browser console, `processLogEntry` offers
the entry to the ring buffer and to exactly the enabled sinks. -/
theorem processLogEntry_offered (cfg : LoggerConfig) (oracle : SetItemOracle)
    (storeDepth : Nat) (ad : RemoteAdapter) (transport : Nat → Bool) (st : LoggerState)
    (e : LogEntry) :
    (processLogEntry cfg false oracle storeDepth ad transport st e).offered =
      Sink.ringBuffer ::
        ((if cfg.enableConsole then [Sink.console] else []) ++
         (if cfg.enableStorage then [Sink.storage] else [])) := by
  unfold processLogEntry
  simp only [Bool.and_false, Bool.false_eq_true, if_false]
  split
  · rfl
  · rfl

/-- When the level passes the filter, the sink trace of `log` is the
sink trace of `processLogEntry`. -/
theorem logOffered_eq_processLogEntry (cfg : LoggerConfig) (consoleFails : Bool)
    (oracle : SetItemOracle) (storeDepth : Nat) (ad : RemoteAdapter)
    (transport : Nat → Bool) (now : Nat) (freshId : String) (st : LoggerState)
    (level : LogLevel) (message : String) (component : Option String)
    (hs : shouldLog cfg level = true) :
    logOffered cfg consoleFails oracle storeDepth ad transport now freshId st level
        message component =
      (processLogEntry cfg consoleFails oracle storeDepth ad transport st
        (createLogEntry now freshId level message component)).offered := by
  unfold logOffered logE
  rw [hs]
  simp only [Bool.not_true, Bool.false_eq_true, if_false]
  rcases h : processLogEntry cfg consoleFails oracle storeDepth ad transport st
      (createLogEntry now freshId level message component) with ⟨st', off, thr⟩
  cases thr <;> simp [h]

/-- A successful outcome of the retry loop names one of the attempt
numbers it iterated over. -/
theorem attemptLoop_success_mem (transport : Nat → Bool) (N d : Nat) (l : List Nat) :
    ∀ (ds : List Nat) (a : Nat) (ds' : List Nat),
      attemptLoop transport N d l ds = .success a ds' → a ∈ l := by
  induction l with
  | nil =>
    intro ds a ds' h
    simp [attemptLoop] at h
  | cons x rest ih =>
    intro ds a ds' h
    by_cases hx : transport x
    · simp only [attemptLoop, hx, if_true] at h
      cases h
      exact List.mem_cons_self x rest
    · simp only [attemptLoop, hx, Bool.false_eq_true, if_false] at h
      exact List.mem_cons_of_mem x (ih _ a ds' h)

/-- Against a transport that always fails, the retry loop exhausts all
attempts and fails, having awaited `d * a` after every non-final
attempt `a`. -/
theorem attemptLoop_allFail (transport : Nat → Bool) (N d : Nat)
    (hfail : ∀ k, transport k = false) (l : List Nat) :
    ∀ ds : List Nat,
      attemptLoop transport N d l ds =
        .failure (ds ++ (l.filter (fun a => a < N)).map (fun a => d * a)) := by
  induction l with
  | nil =>
    intro ds
    simp [attemptLoop]
  | cons x rest ih =>
    intro ds
    simp only [attemptLoop, hfail x, Bool.false_eq_true, if_false]
    rw [ih]
    by_cases hx : x < N
    · simp [hx, List.filter_cons]
    · simp [hx, List.filter_cons]

/-! ## Claim theorems -/

/-- One recursion round of `store` against an always-quota-failing
backend: two backend writes (the store's own and the halved rewrite of
`clearOldEntries`), the store emptied, and then the same call again. -/
theorem storeFuel_quota_step (maxEntries : Nat) (entry : LogEntry) (n : Nat)
    (st : StorageState) :
    storeFuel oracleQuota maxEntries entry (n + 1) st =
      storeFuel oracleQuota maxEntries entry n
        { stored := none, writes := st.writes + 1 + 1, reports := st.reports } := rfl

/-- C1.  The claim says a quota-failed write is retried exactly once
and, if the retry also fails, the entry is dropped and the failure is
reported out-of-band.  The code instead re-enters `store` from its own
catch handler: against a backend whose every write raises
`QuotaExceededError`, `store` makes `2 * fuel` backend writes for any
recursion budget `fuel` (two per round: the halved rewrite in
`clearOldEntries` plus the retried store), never returns, never drops
the entry with an out-of-band report — the recursion is unbounded, so
the call crashes with a stack overflow instead of performing at most
one retry. -/
theorem C1_store_quota_unbounded_retry (fuel : Nat) (maxEntries : Nat) (entry : LogEntry)
    (st : StorageState) :
    (storeFuel oracleQuota maxEntries entry fuel st).crashed = true ∧
    (storeFuel oracleQuota maxEntries entry fuel st).st.writes = st.writes + 2 * fuel ∧
    (storeFuel oracleQuota maxEntries entry fuel st).st.reports = st.reports := by
  induction fuel generalizing st with
  | zero => simp [storeFuel]
  | succ n ih =>
    rw [storeFuel_quota_step]
    refine ⟨(ih _).1, ?_, (ih _).2.2⟩
    have h : (storeFuel oracleQuota maxEntries entry n
        { stored := none, writes := st.writes + 1 + 1, reports := st.reports }).st.writes
          = st.writes + 1 + 1 + 2 * n :=
      (ih _).2.1
    omega

/-- C2.  A flush whose remote transmission fails re-inserts the
drained batch atomically: with the ring-buffer size invariant
(`length ≤ maxSize`, maintained by every buffer operation), the buffer
after the failed flush is exactly the buffer before it — every batch
entry is back, none duplicated, and the drain (`flushBuf`) removed the
batch from the buffer exactly once. -/
theorem C2_flush_failure_atomic_reinsertion (cfg : LoggerConfig) (ad : RemoteAdapter)
    (transport : Nat → Bool) (st : LoggerState) (ds : List Nat)
    (hinv : st.buffer.buffer.length ≤ st.buffer.maxSize)
    (hfail : ad.sendBatch transport st.buffer.buffer = SendOutcome.failure ds) :
    (flushOnce cfg ad transport st).buffer = st.buffer := by
  unfold flushOnce
  split
  · simp only [LogBuffer.flushBuf, hfail]
    have hfold : st.buffer.buffer.foldl LogBuffer.add ⟨[], st.buffer.maxSize⟩ =
        ⟨st.buffer.buffer, st.buffer.maxSize⟩ := by
      have h := foldl_add_no_drop st.buffer.buffer [] st.buffer.maxSize (by simpa using hinv)
      simpa using h
    have hbuf : ({ st.buffer with buffer := [] } : LogBuffer) = ⟨[], st.buffer.maxSize⟩ := rfl
    show (⟨st.buffer.buffer.foldl LogBuffer.add { st.buffer with buffer := [] },
      st.consoleOut, st.storage,
      st.consoleErrors ++ ["Failed to send logs to remote endpoint"]⟩ : LoggerState).buffer
        = st.buffer
    rw [hbuf, hfold]
  · rfl

/-- Witness for C2 at a concrete flush: remote enabled, endpoint
configured, transport failing on every attempt. -/
theorem C2_flush_failure_witness :
    (({ buffer := ⟨[eX, eY], 2⟩, consoleOut := [], storage := StorageState.init,
        consoleErrors := [] } : LoggerState).buffer.buffer.length ≤ 2) ∧
    (flushOnce { enableRemote := true } ⟨some "https://logs.example.com", 3, 5⟩
        (fun _ => false)
        { buffer := ⟨[eX, eY], 2⟩, consoleOut := [], storage := StorageState.init,
          consoleErrors := [] }).buffer = ⟨[eX, eY], 2⟩ :=
  ⟨by decide,
    C2_flush_failure_atomic_reinsertion { enableRemote := true }
      ⟨some "https://logs.example.com", 3, 5⟩ (fun _ => false)
      { buffer := ⟨[eX, eY], 2⟩, consoleOut := [], storage := StorageState.init,
        consoleErrors := [] } [5, 10] (by decide) (by decide)⟩

/-- C3.  The claim says `destroy()` unregisters the process-wide
handlers installed at construction.  Construction does install both
handlers unconditionally, but `destroy` only clears the flush timer
and runs a final flush — it never calls `removeEventListener`, so after
`destroy()` both handlers registered by the instance are still
installed. -/
theorem C3_destroy_leaves_handlers_installed (cfg : LoggerConfig) :
    (constructLogger cfg).installedHandlers =
      [GlobalHandler.onError, GlobalHandler.onUnhandledRejection] ∧
    (destroyLogger (constructLogger cfg)).flushTimerActive = false ∧
    (destroyLogger (constructLogger cfg)).installedHandlers =
      [GlobalHandler.onError, GlobalHandler.onUnhandledRejection] := by
  exact ⟨rfl, rfl, rfl⟩

/-- C6.  The ring buffer never exceeds its capacity after any sequence
of adds, an add to a full buffer drops exactly the oldest entry, and
with capacity 2 the adds X, Y, Z leave [Y, Z]. -/
theorem C6_ringBuffer_bounded_drops_oldest (N : Nat) (es : List LogEntry) (b : LogBuffer)
    (e : LogEntry) :
    (1 ≤ N → (es.foldl LogBuffer.add (LogBuffer.create N)).buffer.length ≤ N) ∧
    (0 < b.maxSize → b.buffer.length = b.maxSize →
      (b.add e).buffer = b.buffer.tail ++ [e]) ∧
    ([eX, eY, eZ].foldl LogBuffer.add (LogBuffer.create 2)).buffer = [eY, eZ] := by
  refine ⟨?_, ?_, by decide⟩
  · intro hN
    have h1 : ((es.foldl LogBuffer.add (LogBuffer.create N))).buffer.length ≤
        ((es.foldl LogBuffer.add (LogBuffer.create N))).maxSize :=
      LogBuffer.foldl_add_length_le es (LogBuffer.create N) (by simp [LogBuffer.create])
    have h2 : ((es.foldl LogBuffer.add (LogBuffer.create N))).maxSize = N := by
      rw [LogBuffer.foldl_add_maxSize]
      simp [LogBuffer.create]
      omega
    omega
  · intro hpos hfull
    unfold LogBuffer.add
    have hlt : b.maxSize < (b.buffer ++ [e]).length := by
      simp only [List.length_append, List.length_singleton]
      omega
    simp only [hlt, if_pos]
    have hne : b.buffer ≠ [] := by
      intro hnil
      rw [hnil] at hfull
      simp at hfull
      omega
    cases hb : b.buffer with
    | nil => exact absurd hb hne
    | cons x xs => simp

/-- Witness for C6 at capacity 2 and a full buffer. -/
theorem C6_ringBuffer_witness :
    ([eX, eY, eZ].foldl LogBuffer.add (LogBuffer.create 2)).buffer.length ≤ 2 ∧
    ((⟨[eX, eY], 2⟩ : LogBuffer).add eZ).buffer = [eX, eY].tail ++ [eZ] :=
  ⟨(C6_ringBuffer_bounded_drops_oldest 2 [eX, eY, eZ] ⟨[eX, eY], 2⟩ eZ).1 (by decide),
    (C6_ringBuffer_bounded_drops_oldest 2 [eX, eY, eZ] ⟨[eX, eY], 2⟩ eZ).2.1
      (by decide) (by decide)⟩

/-- C5.  With durable capacity `C`, a sequence of sequential stores
retains exactly the most recent `min n C` entries (the oldest are
evicted first, so the retained list is the length-`min n C` suffix),
and `getLogs` returns them newest-first whenever the stored timestamps
strictly increase along the sequence; in particular with capacity 3 and
stores A, B, C, D it returns [D, C, B].  `storeSeq` is the
successful-write path of `store` (see `storeFuel_ok`). -/
theorem C5_durable_retention_newest_first (C w : Nat) (rp : List String)
    (es : List LogEntry) :
    storeSeq C es = es.drop (es.length - C) ∧
    (storeSeq C es).length = min es.length C ∧
    (es.Pairwise (fun a b => a.timestamp < b.timestamp) →
      getLogsAll { stored := some (storeSeq C es), writes := w, reports := rp }
        = (storeSeq C es).reverse) ∧
    getLogsAll { stored := some (storeSeq 3 [eA, eB, eC, eD]), writes := w, reports := rp }
      = [eD, eC, eB] := by
  refine ⟨storeSeq_eq_drop C es, ?_, ?_, ?_⟩
  · rw [storeSeq_eq_drop]
    rw [List.length_drop]
    omega
  · intro hmono
    have hp : (storeSeq C es).Pairwise (fun a b => a.timestamp < b.timestamp) := by
      rw [storeSeq_eq_drop]
      exact hmono.sublist (List.drop_sublist _ _)
    simp only [getLogsAll, retrieveModel, Option.getD_some]
    exact sortDesc_strictMono _ hp
  · rfl

/-- Witness for C5 at capacity 3 and the stores A, B, C, D. -/
theorem C5_durable_retention_witness :
    ([eA, eB, eC, eD].Pairwise (fun a b => a.timestamp < b.timestamp)) ∧
    getLogsAll { stored := some (storeSeq 3 [eA, eB, eC, eD]), writes := 4, reports := [] }
      = (storeSeq 3 [eA, eB, eC, eD]).reverse :=
  ⟨by decide, (C5_durable_retention_newest_first 3 4 [] [eA, eB, eC, eD]).2.2.1 (by decide)⟩

/-- C4.  Levels strictly below the configured threshold produce no
entry in any sink (`log` returns with the state untouched and an empty
sink trace, for every oracle behaviour); levels at or above the
threshold are offered to the ring buffer and to each enabled sink (with
the browser console, which does not throw, as the console oracle); and
the `shouldLog` filter is monotone in the DEBUG < INFO < WARN < ERROR <
FATAL order. -/
theorem C4_level_filter_monotone_fanout (cfg : LoggerConfig) (consoleFails : Bool)
    (oracle : SetItemOracle) (storeDepth : Nat) (ad : RemoteAdapter)
    (transport : Nat → Bool) (now : Nat) (freshId : String) (st : LoggerState)
    (level : LogLevel) (message : String) (component : Option String) :
    (levelIndex level < levelIndex cfg.level →
      logE cfg consoleFails oracle storeDepth ad transport now freshId st level message
        component = .ok (st, [])) ∧
    (shouldLog cfg level = true →
      logOffered cfg false oracle storeDepth ad transport now freshId st level message
        component =
        Sink.ringBuffer ::
          ((if cfg.enableConsole then [Sink.console] else []) ++
           (if cfg.enableStorage then [Sink.storage] else []))) ∧
    (∀ l1 l2 : LogLevel, levelIndex l1 ≤ levelIndex l2 →
      shouldLog cfg l1 = true → shouldLog cfg l2 = true) := by
  refine ⟨?_, ?_, ?_⟩
  · intro hlt
    have hs : shouldLog cfg level = false := by
      simp only [shouldLog, decide_eq_false_iff_not]
      omega
    simp [logE, hs]
  · intro hs
    rw [logOffered_eq_processLogEntry cfg false oracle storeDepth ad transport now freshId
      st level message component hs]
    exact processLogEntry_offered cfg oracle storeDepth ad transport st
      (createLogEntry now freshId level message component)
  · intro l1 l2 hle h1
    simp only [shouldLog, decide_eq_true_eq] at h1 ⊢
    omega

/-- Witness for C4: DEBUG filtered out under the default INFO
threshold; ERROR fanned out to console and storage; WARN passes the
filter because INFO does. -/
theorem C4_level_filter_witness :
    (logE {} false oracleOk 1 ⟨none, 3, 1000⟩ (fun _ => true) 0 "id" initLoggerState
        .DEBUG "m" none = .ok (initLoggerState, [])) ∧
    (logOffered {} false oracleOk 1 ⟨none, 3, 1000⟩ (fun _ => true) 0 "id" initLoggerState
        .ERROR "m" none =
      Sink.ringBuffer ::
        ((if ({} : LoggerConfig).enableConsole then [Sink.console] else []) ++
         (if ({} : LoggerConfig).enableStorage then [Sink.storage] else []))) ∧
    shouldLog {} .WARN = true :=
  ⟨(C4_level_filter_monotone_fanout {} false oracleOk 1 ⟨none, 3, 1000⟩ (fun _ => true) 0
      "id" initLoggerState .DEBUG "m" none).1 (by decide),
   (C4_level_filter_monotone_fanout {} false oracleOk 1 ⟨none, 3, 1000⟩ (fun _ => true) 0
      "id" initLoggerState .ERROR "m" none).2.1 (by decide),
   (C4_level_filter_monotone_fanout {} false oracleOk 1 ⟨none, 3, 1000⟩ (fun _ => true) 0
      "id" initLoggerState .WARN "m" none).2.2 .INFO .WARN (by decide) (by decide)⟩

/-- C7.  `sendBatch` is a no-op without an endpoint or on an empty
batch; with 3 attempts against a transport that fails twice then
succeeds it returns successfully on the 3rd attempt after awaiting
`baseDelay * 1` then `baseDelay * 2` (strictly increasing linear
backoff); a successful call used at most the configured number of
attempts; and when every attempt fails it ends in `failure` — the
outcome carries no buffer at all, so nothing is requeued internally. -/
theorem C7_sendBatch_bounded_retry_backoff (ad : RemoteAdapter) (transport : Nat → Bool)
    (entries : List LogEntry) (d : Nat) (e : LogEntry) :
    (ad.endpointMissing = true → ad.sendBatch transport entries = .noop) ∧
    (ad.sendBatch transport [] = .noop) ∧
    ((⟨some "https://logs.example.com", 3, d⟩ : RemoteAdapter).sendBatch
        (fun k => decide (3 ≤ k)) [e] = .success 3 [d * 1, d * 2]) ∧
    (0 < d → d * 1 < d * 2) ∧
    (∀ a ds, ad.sendBatch transport entries = .success a ds →
      1 ≤ a ∧ a ≤ ad.retryAttempts) ∧
    (ad.endpointMissing = false → entries.isEmpty = false → (∀ k, transport k = false) →
      ad.sendBatch transport entries =
        .failure (((List.range' 1 ad.retryAttempts).filter
          (fun a => a < ad.retryAttempts)).map (fun a => ad.retryDelay * a))) := by
  refine ⟨?_, ?_, ?_, ?_, ?_, ?_⟩
  · intro h
    simp [RemoteAdapter.sendBatch, h]
  · simp [RemoteAdapter.sendBatch]
  · rfl
  · intro hd
    omega
  · intro a ds h
    unfold RemoteAdapter.sendBatch at h
    by_cases hc : (ad.endpointMissing || entries.isEmpty) = true
    · rw [if_pos hc] at h
      cases h
    · rw [if_neg hc] at h
      have hmem := attemptLoop_success_mem transport ad.retryAttempts ad.retryDelay
        (List.range' 1 ad.retryAttempts) [] a ds h
      rw [List.mem_range'] at hmem
      omega
  · intro h1 h2 hfail
    unfold RemoteAdapter.sendBatch
    rw [if_neg (by simp [h1, h2])]
    have h := attemptLoop_allFail transport ad.retryAttempts ad.retryDelay hfail
      (List.range' 1 ad.retryAttempts) []
    simpa using h

/-- Witness for C7: the concrete fail-twice-then-succeed run, a
missing endpoint, and an all-fail run with 3 attempts and delay 7. -/
theorem C7_sendBatch_witness :
    ((⟨none, 3, 1000⟩ : RemoteAdapter).endpointMissing = true) ∧
    ((⟨none, 3, 1000⟩ : RemoteAdapter).sendBatch (fun _ => true) [eX] = .noop) ∧
    ((⟨some "https://logs.example.com", 3, 7⟩ : RemoteAdapter).sendBatch
        (fun k => decide (3 ≤ k)) [eX] = .success 3 [7 * 1, 7 * 2]) ∧
    ((⟨some "https://logs.example.com", 3, 7⟩ : RemoteAdapter).sendBatch (fun _ => false)
        [eX] =
      .failure (((List.range' 1 3).filter (fun a => a < 3)).map (fun a => 7 * a))) :=
  ⟨by decide,
   (C7_sendBatch_bounded_retry_backoff ⟨none, 3, 1000⟩ (fun _ => true) [eX] 7 eX).1
     (by decide),
   (C7_sendBatch_bounded_retry_backoff ⟨none, 3, 1000⟩ (fun _ => true) [eX] 7 eX).2.2.1,
   (C7_sendBatch_bounded_retry_backoff ⟨some "https://logs.example.com", 3, 7⟩
      (fun _ => false) [eX] 7 eX).2.2.2.2.2 (by decide) (by decide) (fun _ => rfl)⟩

/-- C9.  `log` never throws back to the caller: for every
configuration, pipeline state and oracle behaviour — a throwing console
sink, any storage backend (including one whose quota recursion
overflows the stack, `storeDepth` being its recursion budget), any
remote transport — `log` returns normally (`Except.ok`); sink failures
end in the `.catch` handler's `console.error`, never in the caller. -/
theorem C9_log_never_throws (cfg : LoggerConfig) (consoleFails : Bool)
    (oracle : SetItemOracle) (storeDepth : Nat) (ad : RemoteAdapter)
    (transport : Nat → Bool) (now : Nat) (freshId : String) (st : LoggerState)
    (level : LogLevel) (message : String) (component : Option String) :
    ∃ out, logE cfg consoleFails oracle storeDepth ad transport now freshId st level
      message component = .ok out := by
  unfold logE
  split
  · exact ⟨_, rfl⟩
  · rcases h : processLogEntry cfg consoleFails oracle storeDepth ad transport st
        (createLogEntry now freshId level message component) with ⟨st', off, thr⟩
    cases thr <;> simp [h]

/-- C8 as stated is false on the code: when the recorded start
timestamp is exactly 0, `end` takes the truthiness branch and does not
delete the label, so after a throwing `measure` the label is still an
active measurement (with its stored 0). -/
theorem C8_measure_zero_start_counterexample :
    (trackerMeasure 0 5 Tracker.init "op"
        (Except.error "boom" : Except String Unit)).2.measurements "op" = some 0 ∧
    (trackerMeasure 0 5 Tracker.init "op"
        (Except.error "boom" : Except String Unit)).1 = Except.error "boom" := by
  exact ⟨rfl, rfl⟩

/-- C8 (amended).  For a throwing operation, `measure` re-raises the
operation's own error unchanged (it can produce no error of its own at
the model's error type), and — provided the recorded start timestamp is
nonzero — the label is absent from the active measurements
afterwards. -/
theorem C8_measure_rethrows_and_clears_label {ε α : Type} (startNow endNow : Nat)
    (tr : Tracker) (label : String) (err : ε) (hnz : startNow ≠ 0) :
    (trackerMeasure startNow endNow tr label (Except.error err : Except ε α)).1
        = Except.error err ∧
    (trackerMeasure startNow endNow tr label
        (Except.error err : Except ε α)).2.measurements label = none := by
  constructor
  · rfl
  · simp [trackerMeasure, trackerStart, trackerEnd, hnz]

/-- Witness for the amended C8 at a nonzero start timestamp. -/
theorem C8_measure_witness :
    (1 : Nat) ≠ 0 ∧
    ((trackerMeasure 1 5 Tracker.init "op"
        (Except.error "boom" : Except String Unit)).1 = Except.error "boom" ∧
     (trackerMeasure 1 5 Tracker.init "op"
        (Except.error "boom" : Except String Unit)).2.measurements "op" = none) :=
  ⟨by decide, C8_measure_rethrows_and_clears_label 1 5 Tracker.init "op" "boom" (by decide)⟩

/-- C10.  When the stored start timestamp is exactly 0, `end` treats
the label as unknown: it logs a warning, returns 0, and leaves the
measurements map (including the label) untouched, because
`if (!startTime)` tests the number for truthiness, not the map for
presence. -/
theorem C10_end_zero_start_treated_unknown (now : Nat) (tr : Tracker) (label : String)
    (h : tr.measurements label = some 0) :
    trackerEnd now tr label =
      (0, { tr with logged := tr.logged ++
        [(LogLevel.WARN, "No start time found for performance label: " ++ label)] }) := by
  simp [trackerEnd, h]

/-- Witness for C10: a label started at `performance.now() = 0` and
then ended. -/
theorem C10_end_zero_start_witness :
    tr0.measurements "op" = some 0 ∧
    trackerEnd 7 tr0 "op" =
      (0, { tr0 with logged := tr0.logged ++
        [(LogLevel.WARN, "No start time found for performance label: " ++ "op")] }) :=
  ⟨by decide, C10_end_zero_start_treated_unknown 7 tr0 "op" (by decide)⟩

end LoggingMW
